import Mathlib

/-!
# Verification of the aicoach onboarding dialogue engine

Shallow embedding, in Lean 4, of the parts of the `bouajo/aicoach`
repository that the specification's claims are about:

* `src/agent.py` — the field registry (`PROFILE_FIELDS`), the field-selection
  logic of `get_next_question`, the extraction/validation pipeline of
  `extract_field_value`, `clean_json_response`, `create_diet_plan` and the
  per-turn orchestrator `process_incoming_message`;
* `src/database.py` — the profile store interface, modelled as explicit state
  plus success/failure flags for each external call;
* `src/utils/uuid_utils.py` — `phone_to_uuid` (with a full SHA-1 / RFC 4122
  version-5 UUID implementation so that it is executable);
* `src/managers/flow_manager.py` — `extract_and_validate_field`;
* `src/data/validators.py` — the numeric range checks of
  `validate_user_profile`.

Python strings are modelled as Lean `String`s; Python `None`/absent dict keys
are modelled with `Option`; external collaborator calls (language model,
Supabase) are modelled by an explicit environment recording each call's
outcome, since the Python code converts every exception of those calls into
an in-band value at the boundary where it occurs.
-/

/-- The whitespace characters removed by Python `str.strip()` (ASCII range;
the identifiers and messages handled by this code are ASCII). -/
def pyWs (c : Char) : Bool :=
  c = ' ' || c = '\t' || c = '\n' || c = '\r' || c = '\x0b' || c = '\x0c'

/-- Python `str.strip()` on a character list. -/
def pyStripList (l : List Char) : List Char :=
  ((l.dropWhile pyWs).reverse.dropWhile pyWs).reverse

/-- Python `str.strip()`. -/
def pyStrip (s : String) : String := ⟨pyStripList s.data⟩

/-- Python `str.lower()`, restricted to the characters this code base
compares (ASCII plus `Ç`, which occurs in the language options). -/
def pyLowerChar (c : Char) : Char := if c = 'Ç' then 'ç' else c.toLower

/-- Python `str.upper()`, restricted likewise (ASCII plus `ç`). -/
def pyUpperChar (c : Char) : Char := if c = 'ç' then 'Ç' else c.toUpper

/-- Python `str.lower()`. -/
def pyLower (s : String) : String := ⟨s.data.map pyLowerChar⟩

/-- Python `str.upper()`. -/
def pyUpper (s : String) : String := ⟨s.data.map pyUpperChar⟩

/-- A stored profile value: Python values that `process_incoming_message`
writes into the profile mapping. -/
inductive Val where
  | str (s : String)
  | num (q : ℚ)
  | bool (b : Bool)
  | null
deriving DecidableEq, Repr

/-- A JSON value as decoded from the analyzer model's reply
(`json.loads` output for the `"value"` key). -/
inductive JVal where
  | num (q : ℚ)
  | str (s : String)
  | bool (b : Bool)
  | null
deriving DecidableEq, Repr

/-- One entry of `PROFILE_FIELDS` (src/agent.py:138-232).  The `type` is kept
as a string because the source dispatches on the string. -/
structure FieldInfo where
  required : Bool
  ftype : String
  options : Option (List String) := none
  min_length : Option ℕ := none
  max_length : Option ℕ := none
  min_value : Option ℚ := none
  max_value : Option ℚ := none
deriving DecidableEq, Repr

/-- The registry `PROFILE_FIELDS` (src/agent.py:138-232), in dict insertion order. -/
def profile_fields : List (String × FieldInfo) :=
  [("language", { required := true, ftype := "text",
                  options := some ["en", "fr", "es", "ar", "hi", "zh", "ja", "ko"] }),
   ("name", { required := true, ftype := "text", min_length := some 2, max_length := some 50 }),
   ("age", { required := true, ftype := "number", min_value := some 18, max_value := some 120 }),
   ("gender", { required := true, ftype := "text", options := some ["homme", "femme"] }),
   ("height", { required := true, ftype := "number", min_value := some 100, max_value := some 250 }),
   ("start_weight", { required := true, ftype := "number",
                      min_value := some 30, max_value := some 300 }),
   ("target_weight", { required := true, ftype := "number",
                       min_value := some 30, max_value := some 300 }),
   ("activity_level", { required := true, ftype := "text",
                        options := some ["sedentary", "light", "moderate", "active", "very_active"] }),
   ("dietary_restrictions", { required := false, ftype := "text" }),
   ("health_conditions", { required := false, ftype := "text" })]

/-- Dictionary lookup `PROFILE_FIELDS[name]`, as an `Option`. -/
def lookup_field (f : String) : Option FieldInfo :=
  (profile_fields.find? (fun e => e.1 == f)).map (fun e => e.2)

/-- The list `REQUIRED_ORDER` (src/agent.py:480-489). -/
def required_order : List String :=
  ["language", "name", "age", "gender", "height", "start_weight", "target_weight",
   "activity_level"]

/-- A user profile row: a mapping from column names to optional values.
`none` models both an absent key and a key stored as Python `None` — the two
cases `get_next_question` treats identically
(`field_name not in user_profile or user_profile[field_name] is None`). -/
abbrev Profile := String → Option Val

/-- The test `field_name not in user_profile or user_profile[field_name] is None`. -/
def unsetB (p : Profile) (f : String) : Bool := (p f).isNone

/-- A single-key profile update (`db.update_user_profile(phone, {f: v})`). -/
def setField (p : Profile) (f : String) (v : Val) : Profile :=
  fun g => if g = f then some v else p g

/-- The field-selection logic of `get_next_question` (src/agent.py:474-552):
walk `REQUIRED_ORDER` and return the first required, unset field — except
that `language` is skipped (`continue`); then walk `PROFILE_FIELDS` for
optional fields not in `REQUIRED_ORDER`; otherwise `"complete"`.  The
natural-language question text produced alongside the field name is
collaborator output and carries no state, so it is not modelled here. -/
def get_next_field (p : Profile) : String :=
  match required_order.find? (fun f =>
      (((lookup_field f).map FieldInfo.required).getD false) && unsetB p f
        && !(f == "language")) with
  | some f => f
  | none =>
    match profile_fields.find? (fun e =>
        !e.2.required && !(required_order.contains e.1) && unsetB p e.1) with
    | some e => e.1
    | none => "complete"

/-- The non-`language` collection fields in the order the engine visits them:
`REQUIRED_ORDER` minus the skipped `language`, then the optional registry
fields in registry order. -/
def collect_fields : List String :=
  ["name", "age", "gender", "height", "start_weight", "target_weight", "activity_level",
   "dietary_restrictions", "health_conditions"]

/-- The sequence of active fields over a run in which every answer is
accepted: each turn the engine asks for `get_next_field p`, stores the
answer's value, and moves on; the run stops at `"complete"` or when the
list of answers is exhausted. -/
def collectRun : Profile → List Val → List String
  | _, [] => []
  | p, v :: rest =>
    let f := get_next_field p
    if f = "complete" then [] else f :: collectRun (setField p f v) rest

/-! ## The extraction pipeline of `extract_field_value` (src/agent.py:277-443) -/

/-- Digit list to number. -/
def digitsToNat (l : List Char) : ℕ :=
  l.foldl (fun a c => a * 10 + (c.toNat - 48)) 0

/-- Python `int(str)`: optional surrounding whitespace, optional sign, digits.
(Pythons digit-group underscores are not modelled; nothing here produces
them.) -/
def pyIntParse (s : String) : Option ℤ :=
  let l := pyStripList s.data
  match l with
  | '+' :: r => if r ≠ [] ∧ r.all Char.isDigit then some (digitsToNat r) else none
  | '-' :: r => if r ≠ [] ∧ r.all Char.isDigit then some (-(digitsToNat r : ℤ)) else none
  | r => if r ≠ [] ∧ r.all Char.isDigit then some (digitsToNat r) else none

/-- Python `float(str)` for finite decimal literals: optional surrounding
whitespace, optional sign, digits with an optional decimal point, optional
exponent.  (`inf`/`nan` and digit-group underscores are not modelled; no
claim involves them.) -/
def pyFloatParse (s : String) : Option ℚ :=
  let l := pyStripList s.data
  let sgnAndRest : ℚ × List Char :=
    match l with
    | '+' :: r => (1, r)
    | '-' :: r => (-1, r)
    | r => (1, r)
  let sgn := sgnAndRest.1
  let l1 := sgnAndRest.2
  let ipart := l1.takeWhile Char.isDigit
  let l2 := l1.dropWhile Char.isDigit
  let fracAndRest : List Char × List Char :=
    match l2 with
    | '.' :: r => (r.takeWhile Char.isDigit, r.dropWhile Char.isDigit)
    | r => ([], r)
  let fpart := fracAndRest.1
  let l3 := fracAndRest.2
  if ipart = [] ∧ fpart = [] then none
  else
    let mant : ℚ := (digitsToNat ipart : ℚ) + (digitsToNat fpart : ℚ) / (10 : ℚ) ^ fpart.length
    match l3 with
    | [] => some (sgn * mant)
    | 'e' :: r =>
      match pyIntParse ⟨r⟩ with
      | some ex => if r ≠ [] ∧ (r.head? ≠ some ' ') then some (sgn * mant * (10 : ℚ) ^ ex) else none
      | none => none
    | 'E' :: r =>
      match pyIntParse ⟨r⟩ with
      | some ex => if r ≠ [] ∧ (r.head? ≠ some ' ') then some (sgn * mant * (10 : ℚ) ^ ex) else none
      | none => none
    | _ => none

/-- Python `float(x)` applied to a JSON-decoded value (the `"value"` entry of
the analyzer reply): numbers pass through, strings are parsed, booleans are
integers in Python, `None` raises `TypeError`. -/
def float_of_json : JVal → Option ℚ
  | .num q => some q
  | .str s => pyFloatParse s
  | .bool b => some (if b then 1 else 0)
  | .null => none

/-- Python `str(x)` applied to a JSON-decoded value.  The rendering of a
float is approximated (`ℚ` does not retain Python float formatting); the
numeric case is reachable only when the analyzer returns a number for a
text field and no claim depends on it. -/
def str_of_json : JVal → String
  | .str s => s
  | .bool b => if b then "True" else "False"
  | .null => "None"
  | .num q => if q.den = 1 then toString q.num else toString q

/-- A profile value copied unchanged from the analyzer reply (the fall-through
when `field_info["type"]` is none of `number`/`text`/`boolean`; no registry
entry hits this case). -/
def val_of_json : JVal → Val
  | .num q => .num q
  | .str s => .str s
  | .bool b => .bool b
  | .null => .null

/-- The check `value < field_info["min_value"]` guarded by key presence. -/
def below_min (info : FieldInfo) (q : ℚ) : Bool :=
  match info.min_value with
  | some m => decide (q < m)
  | none => false

/-- The check `value > field_info["max_value"]` guarded by key presence. -/
def above_max (info : FieldInfo) (q : ℚ) : Bool :=
  match info.max_value with
  | some m => decide (m < q)
  | none => false

/-- The type-specific validation and conversion block of
`extract_field_value` (src/agent.py:363-427), applied to the analyzer's
`"value"`; `none` models the `return None` paths. -/
def convert_field_value (info : FieldInfo) (v : JVal) : Option Val :=
  if info.ftype = "number" then
    match float_of_json v with
    | none => none
    | some q =>
      if below_min info q then none
      else if above_max info q then none
      else some (.num q)
  else if info.ftype = "text" then
    let value := pyLower (pyStrip (str_of_json v))
    if value = "" then none
    else if (match info.options with
             | some opts => !(opts.contains value)
             | none => false) then none
    else if (match info.max_length with
             | some m => decide (m < value.length)
             | none => false) then none
    else if (match info.min_length with
             | some m => decide (value.length < m)
             | none => false) then none
    else some (.str value)
  else if info.ftype = "boolean" then
    match v with
    | .bool b => some (.bool b)
    | .str s => some (.bool (["yes", "true", "1", "y"].contains (pyLower s)))
    | _ => none
  else some (val_of_json v)

/-- The parsed analyzer reply.  `none` at the use sites models every failure
mode that `extract_field_value` maps to `None` before the confidence check:
the collaborator call failing (`chat_completion` returns its apology
fallback), `clean_json_response` yielding no JSON object, `json.loads`
failing, one of the four required keys missing, or a non-numeric
`confidence` (whose comparison raises `TypeError`, caught by the outer
`except`). -/
structure AResp where
  value : JVal
  confidence : ℚ
deriving DecidableEq, Repr

/-- The fixed acceptance threshold of src/agent.py:359
(`if result["confidence"] < 0.7: return None`). -/
def confidence_threshold : ℚ := 7 / 10

/-- The function `extract_field_value` (src/agent.py:277-443) given the outcome of the
analyzer call.  A `field_name` outside the registry raises `KeyError` inside
the function, which its outer `except` turns into `None`.  On success the
function returns the one-key dict `{field_name: value}`. -/
def extract_field_value (field_name : String) (resp : Option AResp) : Option (String × Val) :=
  match lookup_field field_name with
  | none => none
  | some info =>
    match resp with
    | none => none
    | some r =>
      if r.confidence < confidence_threshold then none
      else
        match convert_field_value info r.value with
        | none => none
        | some v => some (field_name, v)

/-! ## The per-turn orchestrator `process_incoming_message` (src/agent.py:601-773) -/

/-- The reply sent back for a turn, by kind.  The natural-language texts the
language model produces for questions, clarifications and error messages
carry no state; each reply records its kind and the data that determines
it. -/
inductive Reply where
  | welcome
  | errorMsg (kind : String)
  | coachIntro (lang : String)
  | planMsg (plan : String)
  | question (field : String)
  | clarification (field : String)
deriving DecidableEq, Repr

/-- One row of the append-only `conversation_messages` table. -/
inductive LogEntry where
  | user (text : String)
  | assistant (r : Reply)
deriving DecidableEq, Repr

/-- The per-user persisted state: the `user_profiles` row (absent until
created) and the conversation log. -/
structure Db where
  profile : Option Profile
  logs : List LogEntry

/-- Outcomes of the external calls made during one turn.  Each Supabase call
returns a success boolean in the source (`create_user_profile`,
`update_user_profile`, `log_message`) or `None` on failure
(`get_user_profile`); `detect_language` and `chat_completion` catch every
exception internally and return a string. -/
structure Env where
  createOk : Bool := true
  updateOk : Bool := true
  logOk : Bool := true
  refreshOk : Bool := true
  detected : String := "en"
  planOk : Bool := true
  planText : String := "plan"
  resp : Option AResp := none
  nowIso : String := "t"

/-- The apology string `chat_completion` returns when the collaborator call
fails (src/deepseek.py:83). -/
def chat_completion_fallback : String := "I\x27m sorry, something went wrong."

/-- The function `create_diet_plan` (src/agent.py:775-799).  `chat_completion` catches
every exception internally and returns its apology fallback, so
`create_diet_plan` never raises: on collaborator failure the fallback text
itself is returned as the plan.  (The function's own `except` branch, which
would return "Error creating plan. Please try again later.", is dead code
for collaborator failures.) -/
def create_diet_plan (env : Env) : String :=
  if env.planOk then env.planText else chat_completion_fallback

/-- The call `db.log_message`: appends on success; on failure the source only logs an
error and the turn continues unconditionally. -/
def log_message (env : Env) (db : Db) (e : LogEntry) : Db :=
  if env.logOk then { db with logs := db.logs ++ [e] } else db

/-- The row `create_user_profile` inserts (src/database.py:94-99):
`language = "und"`, `step = "new"` (the `user_id`/`phone_number` columns are
identifiers, not consulted by the engine). -/
def new_profile : Profile :=
  fun f =>
    if f = "language" then some (.str "und")
    else if f = "step" then some (.str "new")
    else none

/-- The guard of the language-detection flow (src/agent.py:645):
`"language" not in user_profile or user_profile.get("language") == "und"`. -/
def language_pending (p : Profile) : Bool :=
  (p "language").isNone || (p "language" == some (Val.str "und"))

/-- The orchestrator `process_incoming_message` (src/agent.py:601-773), one turn:
resolve/create the profile, run language detection if needed, otherwise
either generate the plan (profile complete, not yet chatting) or extract the
active field's value from the message and store it.  `update_user_profile`
adds an `updated_at` timestamp to every successful update
(src/database.py:125). -/
def process_incoming_message (db : Db) (env : Env) (incoming : String) : Reply × Db :=
  match db.profile with
  | none =>
    if !env.createOk then (.errorMsg "profile_creation_failed", db)
    else
      let db1 : Db := { db with profile := some new_profile }
      let db2 := log_message env db1 (.user incoming)
      let db3 := log_message env db2 (.assistant .welcome)
      (.welcome, db3)
  | some p =>
    if language_pending p then
      let lang := if env.detected = "" then "en" else env.detected
      if !env.updateOk then (.errorMsg "language_detection_failed", db)
      else
        let p1 := setField (setField (setField p "language" (.str lang))
                    "step" (.str "language_detected")) "updated_at" (.str env.nowIso)
        let db1 : Db := { db with profile := some p1 }
        let db2 := log_message env db1 (.assistant (.coachIntro lang))
        (.coachIntro lang, db2)
    else
      let current_field := get_next_field p
      if current_field = "complete" ∧ ¬(p "step" = some (Val.str "chat")) then
        let plan := create_diet_plan env
        if !env.updateOk then (.errorMsg "plan_creation_failed", db)
        else
          let p1 := setField (setField (setField (setField p "step" (.str "chat"))
                      "plan" (.str plan)) "plan_created_at" (.str env.nowIso))
                      "updated_at" (.str env.nowIso)
          let db1 : Db := { db with profile := some p1 }
          let db2 := log_message env db1 (.assistant (.planMsg plan))
          (.planMsg plan, db2)
      else
        match extract_field_value current_field env.resp with
        | some (f, v) =>
          if !env.updateOk then (.errorMsg "field_value_storage_failed", db)
          else
            let p1 := setField (setField p f v) "updated_at" (.str env.nowIso)
            let db1 : Db := { db with profile := some p1 }
            if !env.refreshOk then (.errorMsg "user_profile_retrieval_failed", db1)
            else
              let nextf := get_next_field p1
              let db2 := log_message env db1 (.assistant (.question nextf))
              (.question nextf, db2)
        | none =>
          let db1 := log_message env db (.assistant (.clarification current_field))
          (.clarification current_field, db1)

/-! ## `clean_json_response` (src/agent.py:29-52) -/

/-- The backquote character (written by code point to keep source plain). -/
def backquote : Char := Char.ofNat 96

/-- The literal part of the pattern `r'```json\n?'`. -/
def fencePat : List Char := [backquote, backquote, backquote, 'j', 's', 'o', 'n']

/-- The substitution `re.sub(r'```json\n?', '', response)`: remove every occurrence of
"```json" together with one following newline if present, scanning left to
right.  Fueled recursion (the fuel, initialised to the length, dominates the
number of steps) so that the definition stays structural and computable by
the kernel. -/
def removeFencesAux : ℕ → List Char → List Char
  | 0, l => l
  | _, [] => []
  | fuel + 1, c :: rest =>
    if (c :: rest).take 7 = fencePat then
      removeFencesAux fuel (if (rest.drop 6).head? == some '\n' then rest.drop 7 else rest.drop 6)
    else c :: removeFencesAux fuel rest

def removeFences (l : List Char) : List Char := removeFencesAux l.length l

/-- The pattern `\n```` of `re.sub(r'\n```$', '', response)`. -/
def tailFencePat : List Char := ['\n', backquote, backquote, backquote]

/-- The substitution `re.sub(r'\n```$', '', response)`: in Python (without `re.MULTILINE`)
`$` matches at the end of the string or just before a final newline, so the
substitution removes a trailing "\n```" either at the very end or right
before one last newline. -/
def stripTrailingFence (l : List Char) : List Char :=
  if 4 ≤ l.length ∧ l.drop (l.length - 4) = tailFencePat then l.take (l.length - 4)
  else if 5 ≤ l.length ∧ l.drop (l.length - 5) = tailFencePat ++ ['\n'] then
    l.take (l.length - 5) ++ ['\n']
  else l

/-- Python `str.find`: index of the first occurrence, or `-1`. -/
def pyFind (l : List Char) (c : Char) : ℤ :=
  match l.findIdx? (fun a => a == c) with
  | some n => (n : ℤ)
  | none => -1

/-- Python `str.rfind`: index of the last occurrence, or `-1`. -/
def pyRFind (l : List Char) (c : Char) : ℤ :=
  match l.reverse.findIdx? (fun a => a == c) with
  | some n => (l.length : ℤ) - 1 - (n : ℤ)
  | none => -1

/-- The response text after both fence substitutions, i.e. the state of
`response` at src/agent.py:47 just before the brace search. -/
def defenced (s : String) : List Char := stripTrailingFence (removeFences s.data)

/-- The function `clean_json_response` (src/agent.py:29-52): strip the markdown fences,
then slice from the first `{` to the last `}` (Python slice semantics,
`response[start:end]` with `end = rfind + 1`) and strip whitespace; return
`""` when either brace is missing (`start == -1 or end == 0`). -/
def clean_json_response (s : String) : String :=
  let l := defenced s
  let start := pyFind l '\x7b'
  let stop := pyRFind l '\x7d' + 1
  if start = -1 ∨ stop = 0 then ""
  else pyStrip ⟨(l.drop start.toNat).take (stop.toNat - start.toNat)⟩

/-! ## `phone_to_uuid` (src/utils/uuid_utils.py:8-29)

`uuid.uuid5(uuid.NAMESPACE_DNS, name)` is the RFC 4122 version-5 UUID:
SHA-1 of the namespace bytes followed by the UTF-8 encoding of `name`,
truncated to 16 bytes with the version/variant bits forced, rendered as
lower-case hex with dashes.  SHA-1 is implemented in full below so the
embedding is executable. -/

/-- 32-bit left rotation. -/
def rotl32 (x s : ℕ) : ℕ := ((x <<< s) ||| (x >>> (32 - s))) % 2 ^ 32

/-- Big-endian 32-bit words from bytes. -/
def bytesToWords : List ℕ → List ℕ
  | b0 :: b1 :: b2 :: b3 :: rest => (((b0 * 256 + b1) * 256 + b2) * 256 + b3) :: bytesToWords rest
  | _ => []

/-- SHA-1 message-schedule extension: append `n` further words. -/
def extendWords (ws : List ℕ) : ℕ → List ℕ
  | 0 => ws
  | n + 1 =>
    let k := ws.length
    let w := rotl32 ((ws.getD (k - 3) 0) ^^^ (ws.getD (k - 8) 0) ^^^
                     (ws.getD (k - 14) 0) ^^^ (ws.getD (k - 16) 0)) 1
    extendWords (ws ++ [w]) n

def sha1F (t b c d : ℕ) : ℕ :=
  if t < 20 then (b &&& c) ||| ((0xFFFFFFFF ^^^ b) &&& d)
  else if t < 40 then b ^^^ c ^^^ d
  else if t < 60 then (b &&& c) ||| (b &&& d) ||| (c &&& d)
  else b ^^^ c ^^^ d

def sha1K (t : ℕ) : ℕ :=
  if t < 20 then 0x5A827999 else if t < 40 then 0x6ED9EBA1
  else if t < 60 then 0x8F1BBCDC else 0xCA62C1D6

def sha1Rounds : ℕ → ℕ × ℕ × ℕ × ℕ × ℕ → List ℕ → ℕ × ℕ × ℕ × ℕ × ℕ
  | _, st, [] => st
  | t, (a, b, c, d, e), w :: ws =>
    let tmp := (rotl32 a 5 + sha1F t b c d + e + sha1K t + w) % 2 ^ 32
    sha1Rounds (t + 1) (tmp, a, rotl32 b 30, c, d) ws

def sha1Init : ℕ × ℕ × ℕ × ℕ × ℕ :=
  (0x67452301, 0xEFCDAB89, 0x98BADCFE, 0x10325476, 0xC3D2E1F0)

def sha1Compress (h : ℕ × ℕ × ℕ × ℕ × ℕ) (block : List ℕ) : ℕ × ℕ × ℕ × ℕ × ℕ :=
  let ws := extendWords (bytesToWords block) 64
  let r := sha1Rounds 0 h ws
  ((h.1 + r.1) % 2 ^ 32, (h.2.1 + r.2.1) % 2 ^ 32, (h.2.2.1 + r.2.2.1) % 2 ^ 32,
   (h.2.2.2.1 + r.2.2.2.1) % 2 ^ 32, (h.2.2.2.2 + r.2.2.2.2) % 2 ^ 32)

/-- SHA-1 padding: `0x80`, zeros to 56 mod 64, 8-byte big-endian bit length. -/
def sha1Pad (msg : List ℕ) : List ℕ :=
  let len := msg.length
  let bitLen := len * 8
  msg ++ [0x80] ++ List.replicate ((119 - len % 64) % 64) 0 ++
    [bitLen / 2 ^ 56 % 256, bitLen / 2 ^ 48 % 256, bitLen / 2 ^ 40 % 256,
     bitLen / 2 ^ 32 % 256, bitLen / 2 ^ 24 % 256, bitLen / 2 ^ 16 % 256,
     bitLen / 2 ^ 8 % 256, bitLen % 256]

def sha1BlocksAux : ℕ → ℕ × ℕ × ℕ × ℕ × ℕ → List ℕ → ℕ × ℕ × ℕ × ℕ × ℕ
  | 0, h, _ => h
  | fuel + 1, h, msg =>
    if msg = [] then h else sha1BlocksAux fuel (sha1Compress h (msg.take 64)) (msg.drop 64)

/-- Big-endian bytes of a 32-bit word. -/
def wordBytes (w : ℕ) : List ℕ :=
  [w / 2 ^ 24 % 256, w / 2 ^ 16 % 256, w / 2 ^ 8 % 256, w % 256]

/-- The 20-byte SHA-1 digest. -/
def sha1Digest (msg : List ℕ) : List ℕ :=
  let padded := sha1Pad msg
  let h := sha1BlocksAux padded.length sha1Init padded
  wordBytes h.1 ++ wordBytes h.2.1 ++ wordBytes h.2.2.1 ++
  wordBytes h.2.2.2.1 ++ wordBytes h.2.2.2.2

/-- The bytes of `uuid.NAMESPACE_DNS` (6ba7b810-9dad-11d1-80b4-00c04fd430c8). -/
def dnsNamespaceBytes : List ℕ :=
  [0x6b, 0xa7, 0xb8, 0x10, 0x9d, 0xad, 0x11, 0xd1,
   0x80, 0xb4, 0x00, 0xc0, 0x4f, 0xd4, 0x30, 0xc8]

/-- UTF-8 encoding of one character. -/
def utf8EncodeChar (c : Char) : List ℕ :=
  let n := c.toNat
  if n < 0x80 then [n]
  else if n < 0x800 then [0xC0 + n / 64, 0x80 + n % 64]
  else if n < 0x10000 then [0xE0 + n / 4096, 0x80 + n / 64 % 64, 0x80 + n % 64]
  else [0xF0 + n / 262144, 0x80 + n / 4096 % 64, 0x80 + n / 64 % 64, 0x80 + n % 64]

/-- Python `str.encode("utf-8")`. -/
def utf8Encode (s : String) : List ℕ :=
  s.data.foldr (fun c acc => utf8EncodeChar c ++ acc) []

def hexDigit (n : ℕ) : Char :=
  if n < 10 then Char.ofNat (48 + n) else Char.ofNat (87 + n)

def byteHex (b : ℕ) : List Char := [hexDigit (b / 16), hexDigit (b % 16)]

def bytesHex (l : List ℕ) : List Char :=
  l.foldr (fun b acc => byteHex b ++ acc) []

/-- The rendering `str(uuid.uuid5(namespace, name))`: SHA-1 of namespace bytes ++ UTF-8
name, first 16 bytes, version nibble forced to 5 and variant bits to `10`,
formatted 8-4-4-4-12. -/
def uuid5 (namespaceBytes : List ℕ) (name : String) : String :=
  let d := (sha1Digest (namespaceBytes ++ utf8Encode name)).take 16
  let b := fun i : ℕ => d.getD i 0
  let fixed := [b 0, b 1, b 2, b 3, b 4, b 5, b 6 % 16 + 0x50, b 7,
                b 8 % 64 + 0x80, b 9, b 10, b 11, b 12, b 13, b 14, b 15]
  ⟨bytesHex (fixed.take 4) ++ '-' :: bytesHex ((fixed.drop 4).take 2) ++
   '-' :: bytesHex ((fixed.drop 6).take 2) ++ '-' :: bytesHex ((fixed.drop 8).take 2) ++
   '-' :: bytesHex (fixed.drop 10)⟩

/-- The cleaning `phone_number.strip().replace("+", "")` (src/utils/uuid_utils.py:20). -/
def removePlus (s : String) : String := ⟨s.data.filter (fun c => !(c == '+'))⟩

def clean_number (s : String) : String := removePlus (pyStrip s)

/-- The namespace string built by `phone_to_uuid`: `f"{prefix}_{clean}"` when
the prefix is truthy (non-`None`, non-empty), else the cleaned number. -/
def namespace_string (pfx : Option String) (phone : String) : String :=
  match pfx with
  | some pre => if pre = "" then clean_number phone else pre ++ "_" ++ clean_number phone
  | none => clean_number phone

/-- The function `phone_to_uuid` (src/utils/uuid_utils.py:8-29) with its default prefix
`"wa"`. -/
def phone_to_uuid (phone : String) : String :=
  uuid5 dnsNamespaceBytes (namespace_string (some "wa") phone)

/-! ## `extract_and_validate_field` (src/managers/flow_manager.py:158-253)

The target-date branch calls `date.today()`: the current date is therefore an
input of the computation, made explicit here as the `today` parameter. -/

/-- The enum `ConversationState` (src/data/models.py). -/
inductive ConversationState where
  | INTRODUCTION
  | LANGUAGE_SELECTION
  | LANGUAGE_CONFIRMATION
  | NAME_COLLECTION
  | AGE_COLLECTION
  | HEIGHT_COLLECTION
  | START_WEIGHT_COLLECTION
  | GOAL_COLLECTION
  | TARGET_DATE_COLLECTION
  | DIET_PREFERENCES
  | DIET_RESTRICTIONS
  | PLAN_GENERATION
  | PLAN_REVIEW
  | FREE_CHAT
deriving DecidableEq, Repr

/-- A value returned in `extract_and_validate_field`'s result dict. -/
inductive FVal where
  | fstr (s : String)
  | fint (n : ℤ)
  | ffloat (q : ℚ)
deriving DecidableEq, Repr

/-- A calendar date as handled by `datetime.date`. -/
structure PyDate where
  year : ℕ
  month : ℕ
  day : ℕ
deriving DecidableEq, Repr

def isLeap (y : ℕ) : Bool := (y % 4 = 0 ∧ y % 100 ≠ 0) ∨ y % 400 = 0

def daysInMonth (y m : ℕ) : ℕ :=
  if m = 1 ∨ m = 3 ∨ m = 5 ∨ m = 7 ∨ m = 8 ∨ m = 10 ∨ m = 12 then 31
  else if m = 4 ∨ m = 6 ∨ m = 9 ∨ m = 11 then 30
  else if isLeap y then 29 else 28

/-- Proleptic-Gregorian day number of a date (days since 1970-01-01, the
standard civil-from-days construction); subtracting two of these gives
`(d2 - d1).days` of Python `datetime.date`. -/
def daysFromCivil (dt : PyDate) : ℤ :=
  let y : ℤ := if dt.month ≤ 2 then (dt.year : ℤ) - 1 else (dt.year : ℤ)
  let m : ℤ := dt.month
  let d : ℤ := dt.day
  let era : ℤ := y / 400
  let yoe : ℤ := y - era * 400
  let mp : ℤ := (m + 9) % 12
  let doy : ℤ := (153 * mp + 2) / 5 + d - 1
  let doe : ℤ := yoe * 365 + yoe / 4 - yoe / 100 + doy
  era * 146097 + doe - 719468

/-- Python `str.split("-")` on a character list. -/
def splitOnDash (l : List Char) : List (List Char) :=
  match l with
  | [] => [[]]
  | c :: rest =>
    let r := splitOnDash rest
    if c = '-' then [] :: r
    else
      match r with
      | h :: t => (c :: h) :: t
      | [] => [[c]]

/-- Parsing `datetime.strptime(s, "%Y-%m-%d").date()`: four-digit year, one- or
two-digit month and day, all digits, and a valid calendar date
(`datetime` accepts years 1–9999); `none` models `ValueError`. -/
def parse_date (s : String) : Option PyDate :=
  match splitOnDash s.data with
  | [ys, ms, ds] =>
    if ys.length = 4 ∧ ys.all Char.isDigit ∧
       1 ≤ ms.length ∧ ms.length ≤ 2 ∧ ms.all Char.isDigit ∧
       1 ≤ ds.length ∧ ds.length ≤ 2 ∧ ds.all Char.isDigit then
      let y := digitsToNat ys
      let m := digitsToNat ms
      let d := digitsToNat ds
      if 1 ≤ y ∧ 1 ≤ m ∧ m ≤ 12 ∧ 1 ≤ d ∧ d ≤ daysInMonth y m then some ⟨y, m, d⟩
      else none
    else none
  | _ => none

/-- The state-to-column mapping of src/managers/flow_manager.py:186-193. -/
def state_to_field : ConversationState → Option String
  | .NAME_COLLECTION => some "first_name"
  | .AGE_COLLECTION => some "age"
  | .HEIGHT_COLLECTION => some "height_cm"
  | .START_WEIGHT_COLLECTION => some "start_weight"
  | .GOAL_COLLECTION => some "target_weight"
  | .TARGET_DATE_COLLECTION => some "target_date"
  | _ => none

/-- The function `extract_and_validate_field` (src/managers/flow_manager.py:158-253).
The `profile_data` parameter of the source is never read and is omitted;
`today` makes the source's call to `date.today()` explicit.  `none` models
every `return None` path. -/
def extract_and_validate_field (today : PyDate) (current_state : ConversationState)
    (message : String) : Option (String × FVal) :=
  let valueU := pyUpper (pyStrip message)
  if current_state = .LANGUAGE_SELECTION then
    if valueU = "FR" ∨ valueU = "FRANÇAIS" ∨ valueU = "FRENCH" then
      some ("language", .fstr "fr")
    else if valueU = "EN" ∨ valueU = "ENGLISH" ∨ valueU = "ANGLAIS" then
      some ("language", .fstr "en")
    else none
  else
    let value := pyStrip message
    match state_to_field current_state with
    | none => none
    | some field =>
      if field = "first_name" then
        if value = "" ∨ value.length < 2 then none else some ("first_name", .fstr value)
      else if field = "age" then
        match pyIntParse value with
        | some age => if age < 12 ∨ 100 < age then none else some ("age", .fint age)
        | none => none
      else if field = "height_cm" then
        match pyIntParse value with
        | some h => if h < 100 ∨ 250 < h then none else some ("height_cm", .fint h)
        | none => none
      else if field = "start_weight" ∨ field = "target_weight" then
        match pyFloatParse value with
        | some w => if w < 30 ∨ 300 < w then none else some (field, .ffloat w)
        | none => none
      else if field = "target_date" then
        match parse_date value with
        | some d =>
          if daysFromCivil d ≤ daysFromCivil today then none
          else if 730 < daysFromCivil d - daysFromCivil today then none
          else some ("target_date", .fstr value)
        | none => none
      else none

/-! ## The numeric range checks of `validate_user_profile`
(src/data/validators.py:35-61) -/

/-- A Python value as seen by `validate_user_profile`'s `isinstance` checks.
(`bool` being a subclass of `int` in Python is not modelled; no claim
involves booleans here.) -/
inductive PyVal where
  | pint (n : ℤ)
  | pfloat (q : ℚ)
  | pstr (s : String)
deriving DecidableEq, Repr

/-- The `age` block (src/data/validators.py:35-40):
`not isinstance(age, int) or age < 12 or age > 100` raises. -/
def age_check : PyVal → Option ℤ
  | .pint n => if n < 12 ∨ 100 < n then none else some n
  | _ => none

/-- The `height_cm` block (src/data/validators.py:42-47). -/
def height_check : PyVal → Option ℤ
  | .pint n => if n < 100 ∨ 250 < n then none else some n
  | _ => none

/-- The `current_weight`/`target_weight` blocks
(src/data/validators.py:49-61): `isinstance(weight, (int, float))` and the
inclusive range, coercing to float. -/
def weight_check : PyVal → Option ℚ
  | .pint n => if (n : ℚ) < 30 ∨ 300 < (n : ℚ) then none else some (n : ℚ)
  | .pfloat q => if q < 30 ∨ 300 < q then none else some q
  | _ => none

/-! ## Concrete fixtures used by witnesses and counterexamples -/

/-- Read one field of the stored profile of a `Db`. -/
def profile_get (db : Db) (f : String) : Option Val :=
  match db.profile with
  | some p => p f
  | none => none

/-- A profile with no field stored at all — in particular no `language`. -/
def profile_empty : Profile := fun _ => none

/-- A fresh profile having only a detected language. -/
def profile_lang_only : Profile :=
  fun f => if f = "language" then some (.str "en") else none

/-- A profile with every registry field stored and `step` still short of
`"chat"`. -/
def profile_complete : Profile := fun f =>
  if f = "language" then some (.str "en")
  else if f = "name" then some (.str "alice")
  else if f = "age" then some (.num 30)
  else if f = "gender" then some (.str "homme")
  else if f = "height" then some (.num 170)
  else if f = "start_weight" then some (.num 80)
  else if f = "target_weight" then some (.num 70)
  else if f = "activity_level" then some (.str "moderate")
  else if f = "dietary_restrictions" then some (.str "none")
  else if f = "health_conditions" then some (.str "none")
  else if f = "step" then some (.str "language_detected")
  else none

/-- A profile whose detected language is stored and whose free-text `name`
field holds the validated value `"und"` (three characters, within the
`name` length bounds [2,50]) — a legitimately stored value that happens to
coincide with the language sentinel. -/
def profile_und_name : Profile := fun f =>
  if f = "language" then some (.str "en")
  else if f = "name" then some (.str "und")
  else none

/-! # Theorems

Shared helper lemmas first, then one theorem (plus witness/counterexample
where required) per claim. -/

theorem list_find?_eq_head_filter {α : Type} (q : α → Bool) (l : List α) :
    l.find? q = (l.filter q).head? := by
  induction l with
  | nil => rfl
  | cons a t ih =>
    by_cases h : q a
    · rw [List.find?_cons_of_pos _ h, List.filter_cons_of_pos h]; rfl
    · rw [List.find?_cons_of_neg _ h, List.filter_cons_of_neg h, ih]

theorem list_find?_congr {α : Type} {q r : α → Bool} :
    ∀ {l : List α}, (∀ a ∈ l, q a = r a) → l.find? q = l.find? r := by
  intro l
  induction l with
  | nil => intro _; rfl
  | cons a t ih =>
    intro h
    have ha := h a (List.mem_cons_self a t)
    by_cases hr : r a = true
    · rw [List.find?_cons_of_pos _ (ha ▸ hr), List.find?_cons_of_pos _ hr]
    · have hq : ¬ q a = true := by rw [ha]; exact hr
      rw [List.find?_cons_of_neg _ hq, List.find?_cons_of_neg _ hr]
      exact ih fun b hb => h b (List.mem_cons_of_mem a hb)

/-- The selector `get_next_field` in closed form: the head of the unset collection
fields (with `language` never among them, since the source `continue`s past
it), defaulting to `"complete"`. -/
theorem get_next_field_eq (p : Profile) :
    get_next_field p = (collect_fields.filter (unsetB p)).headD "complete" := by
  unfold get_next_field
  have h7 : required_order.find? (fun f =>
      (((lookup_field f).map FieldInfo.required).getD false) && unsetB p f && !(f == "language"))
      = (["name", "age", "gender", "height", "start_weight", "target_weight",
          "activity_level"] : List String).find? (unsetB p) := by
    rw [show required_order = "language" :: ["name", "age", "gender", "height",
          "start_weight", "target_weight", "activity_level"] from rfl]
    rw [List.find?_cons_of_neg _ (by simp)]
    exact list_find?_congr (by intro f hf; fin_cases hf <;> simp [lookup_field, profile_fields])
  rw [h7, list_find?_eq_head_filter]
  rw [show collect_fields = (["name", "age", "gender", "height", "start_weight",
        "target_weight", "activity_level"] : List String) ++
        ["dietary_restrictions", "health_conditions"] from rfl, List.filter_append]
  cases hf : (["name", "age", "gender", "height", "start_weight", "target_weight",
      "activity_level"] : List String).filter (unsetB p) with
  | cons f t => simp
  | nil =>
    simp only [List.nil_append]
    cases hd : unsetB p "dietary_restrictions" <;>
      cases hh : unsetB p "health_conditions" <;>
        simp [profile_fields, required_order, List.find?, List.filter, hd, hh]

theorem collect_fields_nodup : collect_fields.Nodup := by decide

theorem collect_fields_ne_complete : ∀ f ∈ collect_fields, f ≠ "complete" := by decide

/-- Storing a value for the head of the unset-field list removes exactly
that head: the engine's accepted write never resurrects or reorders the
remaining unset fields. -/
theorem filter_setField (v : Val) {l : List String} (hnd : l.Nodup) {p : Profile}
    {f : String} {r : List String} (h : l.filter (unsetB p) = f :: r) :
    l.filter (unsetB (setField p f v)) = r := by
  induction l generalizing r with
  | nil => simp at h
  | cons a t ih =>
    rw [List.nodup_cons] at hnd
    by_cases ha : unsetB p a = true
    · rw [List.filter_cons_of_pos ha] at h
      have h1 : a = f := by injection h
      have hr : t.filter (unsetB p) = r := by injection h
      subst h1
      rw [List.filter_cons_of_neg (by simp [unsetB, setField])]
      rw [← hr]
      apply List.filter_congr
      intro b hb
      have hba : b ≠ a := fun e => hnd.1 (e ▸ hb)
      simp [unsetB, setField, hba]
    · rw [List.filter_cons_of_neg ha] at h
      have haf : a ≠ f := by
        intro e
        have hm : f ∈ t.filter (unsetB p) := h ▸ List.mem_cons_self f r
        have := (List.mem_filter.mp hm).2
        exact ha (e ▸ this)
      rw [List.filter_cons_of_neg (by simpa [unsetB, setField, haf] using ha)]
      exact ih hnd.2 h

/-- Master run lemma: over any list of accepted answers, the visited fields
are exactly the leading unset collection fields, in registry order. -/
theorem collectRun_eq (vs : List Val) : ∀ p : Profile,
    collectRun p vs = (collect_fields.filter (unsetB p)).take vs.length := by
  induction vs with
  | nil => intro p; rfl
  | cons v rest ih =>
    intro p
    cases hf : collect_fields.filter (unsetB p) with
    | nil =>
      have hc : get_next_field p = "complete" := by rw [get_next_field_eq, hf]; rfl
      simp [collectRun, hc]
    | cons f t =>
      have hgf : get_next_field p = f := by rw [get_next_field_eq, hf]; rfl
      have hfc : f ≠ "complete" := by
        have hm : f ∈ collect_fields.filter (unsetB p) := hf ▸ List.mem_cons_self f t
        exact collect_fields_ne_complete f (List.mem_filter.mp hm).1
      have hstep := filter_setField v collect_fields_nodup hf
      simp [collectRun, hgf, hfc, ih (setField p f v), hstep]

/-- Claim C1 — counterexample to the claim as stated.  On a profile with no
stored `language`, the first field of the required order
`(language, name, age, …)` that is unset is `language`, but
`get_next_question` skips `language` (`continue`, src/agent.py:496-497) and
reports `name` as the active field, so the active field is not always the
first unset field of the required order. -/
theorem c1_counterexample :
    required_order.find? (unsetB profile_empty) = some "language" ∧
    get_next_field profile_empty = "name" := by decide

/-- Claim C1 (amended): for every profile whose `language` is already stored —
which the orchestrator guarantees before field collection, because the
language-detection flow intercepts every message until a language is saved —
(i) the active field returned by `get_next_question` is the first field of
the required order that is unset in the profile; (ii) over any sequence of
accepted answers the engine visits exactly the unset collection fields, in
fixed registry order, each exactly once (`collect_fields` is
duplicate-free); and (iii) `"complete"` is returned only when every
required field has a stored value. -/
theorem c1_registry_order (p : Profile) (vs : List Val) (h : p "language" ≠ none) :
    (∀ f, required_order.find? (unsetB p) = some f → get_next_field p = f) ∧
    collectRun p vs = (collect_fields.filter (unsetB p)).take vs.length ∧
    (get_next_field p = "complete" → ∀ f ∈ required_order, p f ≠ none) := by
  have hlang : unsetB p "language" = false := by
    unfold unsetB
    cases hc : p "language" with
    | none => exact absurd hc h
    | some v => rfl
  refine ⟨?_, collectRun_eq vs p, ?_⟩
  · intro f hf
    rw [show required_order = "language" :: ["name", "age", "gender", "height",
          "start_weight", "target_weight", "activity_level"] from rfl] at hf
    rw [List.find?_cons_of_neg _ (by simp [hlang]), list_find?_eq_head_filter] at hf
    cases hfil : (["name", "age", "gender", "height", "start_weight", "target_weight",
        "activity_level"] : List String).filter (unsetB p) with
    | nil => rw [hfil] at hf; exact absurd hf (by simp)
    | cons a t =>
      rw [hfil] at hf
      have haf : a = f := by simpa using hf
      rw [get_next_field_eq, show collect_fields = (["name", "age", "gender", "height",
            "start_weight", "target_weight", "activity_level"] : List String) ++
            ["dietary_restrictions", "health_conditions"] from rfl, List.filter_append, hfil]
      simpa using haf
  · intro hc f hfmem
    rw [get_next_field_eq] at hc
    cases hfil : collect_fields.filter (unsetB p) with
    | cons a t =>
      rw [hfil] at hc
      have : a ∈ collect_fields.filter (unsetB p) := hfil ▸ List.mem_cons_self a t
      exact absurd (by simpa using hc) (collect_fields_ne_complete a (List.mem_filter.mp this).1)
    | nil =>
      have hall : ∀ x ∈ collect_fields, ¬ unsetB p x = true := by
        intro x hx hux
        have : x ∈ collect_fields.filter (unsetB p) := List.mem_filter.mpr ⟨hx, hux⟩
        rw [hfil] at this
        exact absurd this (List.not_mem_nil x)
      have hcover : ∀ g ∈ required_order, g = "language" ∨ g ∈ collect_fields := by decide
      rcases hcover f hfmem with hfl | hfc
      · exact hfl ▸ h
      · intro hnone
        exact hall f hfc (by simp [unsetB, hnone])

/-- Witness for `c1_registry_order`: from a fresh profile that has only a
language, nine accepted answers visit all nine collection fields in
registry order. -/
theorem c1_registry_order_witness :
    collectRun profile_lang_only (List.replicate 9 (Val.num 1)) = collect_fields := by
  have h := (c1_registry_order profile_lang_only (List.replicate 9 (Val.num 1))
    (by decide)).2.1
  rw [h]; decide

theorem log_message_profile (env : Env) (db : Db) (e : LogEntry) :
    (log_message env db e).profile = db.profile := by
  unfold log_message
  split <;> rfl

/-- Claim C2: in a collecting state (language stored, collection not
complete), a turn whose extraction/validation pipeline fails —
`extract_field_value` returns `None` — writes nothing to the profile and
replies with a clarification for the active field; since the profile is
unchanged, the same field is active again on the next turn. -/
theorem c2_rejection_non_destructive (db : Db) (env : Env) (msg : String) (p : Profile)
    (hp : db.profile = some p) (hl : language_pending p = false)
    (hcf : get_next_field p ≠ "complete")
    (hfail : extract_field_value (get_next_field p) env.resp = none) :
    (process_incoming_message db env msg).1 = .clarification (get_next_field p) ∧
    (process_incoming_message db env msg).2.profile = some p := by
  unfold process_incoming_message
  rw [hp]
  simp [hl, hcf, hfail, log_message_profile, hp]

/-- Witness for `c2_rejection_non_destructive`: a fresh profile with only a
language; the analyzer reply is unusable (`resp = none`), so the turn
replies with a clarification for `name` and stores nothing. -/
theorem c2_witness :
    (process_incoming_message ⟨some profile_lang_only, []⟩ {} "hello").1
        = .clarification (get_next_field profile_lang_only) ∧
    (process_incoming_message ⟨some profile_lang_only, []⟩ {} "hello").2.profile
        = some profile_lang_only :=
  c2_rejection_non_destructive ⟨some profile_lang_only, []⟩ {} "hello" profile_lang_only
    rfl (by decide) (by decide) (by decide)

/-- Claim C3: for an extraction whose parsed analyzer reply carries confidence
`c` and an otherwise-valid value, the extraction is rejected exactly when
`c < 0.7`: confidence `0.7` itself is accepted, anything lower is rejected,
and the cut-off is the single constant `confidence_threshold`, applied
before all type-specific handling, identically for every field
(src/agent.py:359-361). -/
theorem c3_confidence_threshold (f : String) (info : FieldInfo) (r : AResp) (v : Val)
    (hf : lookup_field f = some info) (hv : convert_field_value info r.value = some v) :
    (extract_field_value f (some r) = none ↔ r.confidence < confidence_threshold) ∧
    (extract_field_value f (some r) = some (f, v) ↔ confidence_threshold ≤ r.confidence) := by
  unfold extract_field_value
  rw [hf]
  by_cases hc : r.confidence < confidence_threshold
  · simp [hc, not_le.mpr hc]
  · simp [hc, hv, not_lt.mp hc]

/-- Witness for `c3_confidence_threshold`: the boundary values of the spec,
on the `age` field — confidence 0.7 is accepted, 0.6999 is rejected. -/
theorem c3_confidence_threshold_witness :
    extract_field_value "age" (some ⟨JVal.num 30, 7 / 10⟩) = some ("age", Val.num 30) ∧
    extract_field_value "age" (some ⟨JVal.num 30, 6999 / 10000⟩) = none :=
  ⟨(c3_confidence_threshold "age"
      { required := true, ftype := "number", min_value := some 18, max_value := some 120 }
      ⟨JVal.num 30, 7 / 10⟩ (Val.num 30) (by decide) (by decide)).2.mpr
      (by norm_num [confidence_threshold]),
   (c3_confidence_threshold "age"
      { required := true, ftype := "number", min_value := some 18, max_value := some 120 }
      ⟨JVal.num 30, 6999 / 10000⟩ (Val.num 30) (by decide) (by decide)).1.mpr
      (by norm_num [confidence_threshold])⟩

/-- Claim C4 — the code contradicts the claim (and the claim matches the
code's own intent: the orchestrator's `except` handler for
`plan_creation_failed` at src/agent.py:708-710 and `create_diet_plan`'s own
fallback "Error creating plan. Please try again later." both presuppose a
retry).  When the plan collaborator fails, `chat_completion` swallows the
exception and returns its apology string, so `create_diet_plan` returns
that string instead of raising; `process_incoming_message` then stores it
as the plan, sets `step = "chat"`, and sends it to the user.  The state
does not remain `complete`: the next message is routed to the chat-era
branch (where the active field is the pseudo-field `"complete"`, yielding a
clarification), and plan generation is never re-attempted. -/
theorem c4_plan_failure_advances_state :
    (process_incoming_message ⟨some profile_complete, []⟩ { planOk := false } "go").1
        = .planMsg chat_completion_fallback ∧
    profile_get (process_incoming_message ⟨some profile_complete, []⟩
        { planOk := false } "go").2 "step" = some (.str "chat") ∧
    profile_get (process_incoming_message ⟨some profile_complete, []⟩
        { planOk := false } "go").2 "plan" = some (.str chat_completion_fallback) ∧
    (process_incoming_message (process_incoming_message ⟨some profile_complete, []⟩
        { planOk := false } "go").2 { planOk := false } "retry").1
        = .clarification "complete" := by
  refine ⟨?_, ?_, ?_, ?_⟩ <;> decide

/-- A failing conversation-log append changes neither the reply nor the
stored profile of a turn: `process_incoming_message` ignores
`log_message`'s boolean result (src/agent.py:631-634, 670, 703, 745, 758). -/
theorem process_log_failure_irrelevant (db : Db) (env : Env) (msg : String) (b : Bool) :
    (process_incoming_message db { env with logOk := b } msg).1
      = (process_incoming_message db env msg).1 ∧
    (process_incoming_message db { env with logOk := b } msg).2.profile
      = (process_incoming_message db env msg).2.profile := by
  unfold process_incoming_message
  cases hdb : db.profile with
  | none => cases hc : env.createOk <;> simp [hc, log_message_profile]
  | some p =>
    by_cases hl : language_pending p
    · cases hu : env.updateOk <;> simp [hl, hu, log_message_profile]
    · by_cases hplan : get_next_field p = "complete" ∧ ¬ p "step" = some (Val.str "chat")
      · cases hu : env.updateOk <;>
          simp [hl, hu, hplan, log_message_profile, create_diet_plan]
      · cases hex : extract_field_value (get_next_field p) env.resp with
        | none => cases hu : env.updateOk <;> simp [hl, hu, hplan, hex, log_message_profile]
        | some fv =>
          cases hu : env.updateOk
          · simp [hl, hu, hplan, hex]
          · cases hr : env.refreshOk <;> simp [hl, hu, hplan, hex, hr, log_message_profile]

/-- Claim C5 — counterexample to the claim as stated.  On a brand-new user's
first turn whose conversation-log appends fail (`logOk = false`) while the
profile insert succeeds, the orchestrator does *not* return a generic error
reply: it returns the welcome message, and the profile creation stands —
`log_message` failures are only logged and ignored (src/agent.py:631-635). -/
theorem c5_counterexample :
    process_incoming_message ⟨none, []⟩ { logOk := false } "hi"
      = (.welcome, ⟨some new_profile, []⟩) := rfl

/-- Claim C5 (amended): failures of the persistence calls that the turn's
control flow consults are fatal for the turn — profile creation, and the
profile update of whichever branch runs (language detection, plan storage,
field storage), each yield a generic error reply with the store unchanged,
so the next message retries from the same point; conversation-log append
failures, however, are ignored: they change neither the reply nor the
stored profile. -/
theorem c5_persistence_failures (db : Db) (env : Env) (msg : String) :
    (db.profile = none → env.createOk = false →
      process_incoming_message db env msg = (.errorMsg "profile_creation_failed", db)) ∧
    (∀ p, db.profile = some p → language_pending p = true → env.updateOk = false →
      process_incoming_message db env msg = (.errorMsg "language_detection_failed", db)) ∧
    (∀ p, db.profile = some p → language_pending p = false →
      get_next_field p = "complete" → ¬ p "step" = some (Val.str "chat") →
      env.updateOk = false →
      process_incoming_message db env msg = (.errorMsg "plan_creation_failed", db)) ∧
    (∀ p f v, db.profile = some p → language_pending p = false →
      ¬ (get_next_field p = "complete" ∧ ¬ p "step" = some (Val.str "chat")) →
      extract_field_value (get_next_field p) env.resp = some (f, v) →
      env.updateOk = false →
      process_incoming_message db env msg = (.errorMsg "field_value_storage_failed", db)) ∧
    ((process_incoming_message db { env with logOk := false } msg).1
        = (process_incoming_message db env msg).1 ∧
     (process_incoming_message db { env with logOk := false } msg).2.profile
        = (process_incoming_message db env msg).2.profile) := by
  refine ⟨?_, ?_, ?_, ?_, process_log_failure_irrelevant db env msg false⟩
  · intro hp hc
    unfold process_incoming_message
    rw [hp]
    simp [hc]
  · intro p hp hl hu
    unfold process_incoming_message
    rw [hp]
    simp [hl, hu]
  · intro p hp hl hcomp hstep hu
    unfold process_incoming_message
    rw [hp]
    simp [hl, hu, hcomp, hstep]
  · intro p f v hp hl hplan hex hu
    unfold process_incoming_message
    rw [hp]
    simp [hl, hu, hplan, hex]

/-- Witness for `c5_persistence_failures`: with the store rejecting writes,
the plan-storage update of a completed profile yields the plan-failure
error reply and leaves the store untouched. -/
theorem c5_persistence_failures_witness :
    process_incoming_message ⟨some profile_complete, []⟩ { updateOk := false } "x"
      = (.errorMsg "plan_creation_failed", ⟨some profile_complete, []⟩) := by
  have h := (c5_persistence_failures ⟨some profile_complete, []⟩
    { updateOk := false } "x").2.2.1
  exact h profile_complete rfl (by decide) (by decide) (by decide) rfl

/-- The dict key returned by a successful `extract_field_value` is the field
it was asked for (`return {field_name: result["value"]}`). -/
theorem extract_field_value_fst {f : String} {r : Option AResp} {g : String} {v : Val}
    (h : extract_field_value f r = some (g, v)) : g = f := by
  unfold extract_field_value at h
  cases hl : lookup_field f with
  | none => rw [hl] at h; dsimp only at h; exact absurd h (by simp)
  | some info =>
    rw [hl] at h
    dsimp only at h
    cases r with
    | none => dsimp only at h; exact absurd h (by simp)
    | some a =>
      dsimp only at h
      by_cases hc : a.confidence < confidence_threshold
      · rw [if_pos hc] at h; exact absurd h (by simp)
      · rw [if_neg hc] at h
        cases hv : convert_field_value info a.value with
        | none => rw [hv] at h; dsimp only at h; exact absurd h (by simp)
        | some v' =>
          rw [hv] at h
          dsimp only at h
          simp only [Option.some.injEq, Prod.mk.injEq] at h
          exact h.1.symm

/-- The active field of a not-yet-complete profile is unset in it. -/
theorem get_next_field_unset {p : Profile} (h : get_next_field p ≠ "complete") :
    p (get_next_field p) = none := by
  rw [get_next_field_eq] at h ⊢
  cases hf : collect_fields.filter (unsetB p) with
  | nil => rw [hf] at h; exact absurd rfl h
  | cons a t =>
    have hm : a ∈ collect_fields.filter (unsetB p) := hf ▸ List.mem_cons_self a t
    have := (List.mem_filter.mp hm).2
    simpa [unsetB, Option.isNone_iff_eq_none] using this

/-- Claim C6: a turn never overwrites a registry field that already holds a
stored, previously validated value.  Proved as preservation: every registry
field holding any value at all is preserved verbatim by
`process_incoming_message`, with the single exception of the `language`
column holding the creation sentinel `"und"` — and that is never a
validated value, because `language` is never collected by extraction at all
(`get_next_question` skips it, so no acceptance write targets it; its only
writers are profile creation, which stores `"und"`, and language detection,
which fires only while the column is absent or `"und"`).  In particular the
string `"und"` stored in a free-text field such as `name` is preserved like
any other value.  The plan write touches only the non-registry columns
`step`/`plan`/`plan_created_at`/`updated_at`, and the acceptance write
targets `get_next_question`'s active field, which is always unset in the
profile. -/
theorem c6_no_overwrite (db : Db) (env : Env) (msg : String) (p p' : Profile)
    (f : String) (w : Val)
    (hp : db.profile = some p)
    (hf : f ∈ profile_fields.map Prod.fst)
    (hw : p f = some w) (hund : f = "language" → w ≠ Val.str "und")
    (hp' : (process_incoming_message db env msg).2.profile = some p') :
    p' f = some w := by
  have hnames : f ≠ "step" ∧ f ≠ "plan" ∧ f ≠ "plan_created_at" ∧ f ≠ "updated_at" := by
    fin_cases hf <;> exact ⟨by decide, by decide, by decide, by decide⟩
  unfold process_incoming_message at hp'
  rw [hp] at hp'
  dsimp only at hp'
  by_cases hl : language_pending p
  · rw [if_pos hl] at hp'
    cases hu : env.updateOk
    · rw [hu] at hp'
      simp [hp] at hp'
      exact hp' ▸ hw
    · rw [hu] at hp'
      simp [log_message_profile] at hp'
      have hflang : f ≠ "language" := by
        intro he
        rw [he] at hw
        unfold language_pending at hl
        rw [hw] at hl
        simp at hl
        exact hund he (by rw [hl])
      rw [← hp']
      simp [setField, hflang, hnames.1, hnames.2.2.2, hw]
  · rw [if_neg hl] at hp'
    by_cases hplan : get_next_field p = "complete" ∧ ¬ p "step" = some (Val.str "chat")
    · rw [if_pos hplan] at hp'
      cases hu : env.updateOk
      · rw [hu] at hp'
        simp [hp] at hp'
        exact hp' ▸ hw
      · rw [hu] at hp'
        simp [log_message_profile] at hp'
        rw [← hp']
        simp [setField, hnames.1, hnames.2.1, hnames.2.2.1, hnames.2.2.2, hw]
    · rw [if_neg hplan] at hp'
      cases hex : extract_field_value (get_next_field p) env.resp with
      | none =>
        rw [hex] at hp'
        simp [log_message_profile, hp] at hp'
        exact hp' ▸ hw
      | some fv =>
        obtain ⟨g, v⟩ := fv
        have hg : g = get_next_field p := extract_field_value_fst hex
        have hnc : get_next_field p ≠ "complete" := by
          intro he
          rw [he] at hex
          exact absurd hex (by rw [show ∀ r, extract_field_value "complete" r = none
            from fun r => rfl]; simp)
        have hfg : f ≠ g := by
          intro he
          have hun := get_next_field_unset hnc
          rw [← hg, ← he, hw] at hun
          exact absurd hun (by simp)
        rw [hex] at hp'
        dsimp only at hp'
        cases hu : env.updateOk
        · rw [hu] at hp'
          simp [hp] at hp'
          exact hp' ▸ hw
        · rw [hu] at hp'
          cases hr : env.refreshOk
          · rw [hr] at hp'
            simp [log_message_profile] at hp'
            rw [← hp']
            simp [setField, hfg, hnames.2.2.2, hw]
          · rw [hr] at hp'
            simp [log_message_profile] at hp'
            rw [← hp']
            simp [setField, hfg, hnames.2.2.2, hw]

/-- Witness for `c6_no_overwrite`: a turn on a profile whose `name` holds
the validated free-text value `"und"` (and whose language is stored)
leaves both the stored `name` and the stored `language` untouched. -/
theorem c6_no_overwrite_witness :
    profile_get (process_incoming_message ⟨some profile_und_name, []⟩ {} "hi").2 "name"
        = some (.str "und") ∧
    profile_get (process_incoming_message ⟨some profile_und_name, []⟩ {} "hi").2 "language"
        = some (.str "en") :=
  ⟨c6_no_overwrite ⟨some profile_und_name, []⟩ {} "hi" profile_und_name profile_und_name
      "name" (.str "und") rfl (by decide) (by decide) (by decide) rfl,
   c6_no_overwrite ⟨some profile_und_name, []⟩ {} "hi" profile_und_name profile_und_name
      "language" (.str "en") rfl (by decide) (by decide) (by decide) rfl⟩

/-- Claim C7: numeric validation is inclusive at both ends.  For any field
whose registry entry declares `min_value = a` and `max_value = b`, a numeric
candidate `q` passes `extract_field_value`'s range check (and is stored
unchanged) exactly when `a ≤ q ≤ b`; and the standalone profile validators
accept `age`, `height_cm` and the weights exactly on their inclusive ranges
`[12,100]`, `[100,250]` and `[30,300]`. -/
theorem c7_inclusive_bounds (info : FieldInfo) (a b q : ℚ) (n m : ℤ) (w : ℚ)
    (hty : info.ftype = "number") (hmin : info.min_value = some a)
    (hmax : info.max_value = some b) :
    (convert_field_value info (.num q) = some (.num q) ↔ a ≤ q ∧ q ≤ b) ∧
    (convert_field_value info (.num q) = none ↔ ¬ (a ≤ q ∧ q ≤ b)) ∧
    ((age_check (.pint n)).isSome ↔ 12 ≤ n ∧ n ≤ 100) ∧
    ((height_check (.pint m)).isSome ↔ 100 ≤ m ∧ m ≤ 250) ∧
    ((weight_check (.pfloat w)).isSome ↔ 30 ≤ w ∧ w ≤ 300) := by
  have hconv : convert_field_value info (.num q)
      = if below_min info q then none else if above_max info q then none
          else some (.num q) := by
    unfold convert_field_value
    rw [if_pos hty]
    rfl
  have hbm : below_min info q = decide (q < a) := by unfold below_min; rw [hmin]
  have ham : above_max info q = decide (b < q) := by unfold above_max; rw [hmax]
  refine ⟨?_, ?_, ?_, ?_, ?_⟩
  · rw [hconv, hbm, ham]
    by_cases h1 : q < a <;> by_cases h2 : b < q <;> simp [h1, h2] <;>
      exact ⟨not_lt.mp h1, not_lt.mp h2⟩
  · rw [hconv, hbm, ham]
    by_cases h1 : q < a <;> by_cases h2 : b < q <;> simp [h1, h2] <;>
      first
        | exact fun h => absurd h2 (not_lt.mpr h)
        | exact ⟨not_lt.mp h1, not_lt.mp h2⟩
  · unfold age_check
    by_cases h1 : n < 12 <;> by_cases h2 : 100 < n <;> simp [h1, h2] <;> omega
  · unfold height_check
    by_cases h1 : m < 100 <;> by_cases h2 : 250 < m <;> simp [h1, h2] <;> omega
  · unfold weight_check
    by_cases h1 : w < 30 <;> by_cases h2 : 300 < w <;> simp [h1, h2] <;>
      first
        | exact fun h => absurd h2 (not_lt.mpr h)
        | exact ⟨not_lt.mp h1, not_lt.mp h2⟩

/-- Witness for `c7_inclusive_bounds`: both boundary values of the `age`
field (18 and 120) are accepted, on the nose. -/
theorem c7_inclusive_bounds_witness :
    convert_field_value
      { required := true, ftype := "number", min_value := some 18, max_value := some 120 }
      (.num 18) = some (.num 18) ∧
    convert_field_value
      { required := true, ftype := "number", min_value := some 18, max_value := some 120 }
      (.num 120) = some (.num 120) :=
  ⟨(c7_inclusive_bounds
      { required := true, ftype := "number", min_value := some 18, max_value := some 120 }
      18 120 18 12 100 30 rfl rfl rfl).1.mpr (by norm_num),
   (c7_inclusive_bounds
      { required := true, ftype := "number", min_value := some 18, max_value := some 120 }
      18 120 120 12 100 30 rfl rfl rfl).1.mpr (by norm_num)⟩

/-- Claim C8 — counterexample to the claim as stated.  Field validation is not
a pure function of the field definition and candidate: the target-date
branch of `extract_and_validate_field` (src/managers/flow_manager.py:233-247)
calls `date.today()` and compares the candidate against it, so the same
candidate "2026-12-31" is accepted when today is 2026-10-12 and rejected
when today is 2027-06-01 (the date is no longer in the future).  The same
hidden input appears at src/data/validators.py:75. -/
theorem c8_counterexample :
    extract_and_validate_field ⟨2026, 10, 12⟩ .TARGET_DATE_COLLECTION "2026-12-31"
        = some ("target_date", .fstr "2026-12-31") ∧
    extract_and_validate_field ⟨2027, 6, 1⟩ .TARGET_DATE_COLLECTION "2026-12-31" = none := by
  refine ⟨?_, ?_⟩ <;> decide

/-- Claim C8 (amended): validation is a deterministic function of the field
definition, the candidate, and the current date; for every state other than
target-date collection the outcome is independent of the current date (no
other hidden input exists: the embedding of `extract_and_validate_field` is
a pure function whose only inputs are the state, the message and `today`,
and `today` is read only in the target-date branch). -/
theorem c8_validation_deterministic (t1 t2 : PyDate) (st : ConversationState)
    (msg : String) (hst : st ≠ .TARGET_DATE_COLLECTION) :
    extract_and_validate_field t1 st msg = extract_and_validate_field t2 st msg := by
  cases st <;> first | rfl | exact absurd rfl hst

/-- Witness for `c8_validation_deterministic`: an age answer validates the
same on two different days. -/
theorem c8_validation_deterministic_witness :
    extract_and_validate_field ⟨2026, 1, 1⟩ .AGE_COLLECTION " 25 "
      = extract_and_validate_field ⟨2027, 1, 1⟩ .AGE_COLLECTION " 25 " :=
  c8_validation_deterministic ⟨2026, 1, 1⟩ ⟨2027, 1, 1⟩ .AGE_COLLECTION " 25 " (by decide)

theorem dropWhile_head_not (l : List Char)
    (h : ∀ c, l.head? = some c → pyWs c = false) : l.dropWhile pyWs = l := by
  cases l with
  | nil => rfl
  | cons a t => rw [List.dropWhile_cons, h a rfl]; simp

/-- Python `str.strip()` is the identity on a string whose two ends are not
whitespace. -/
theorem pyStripList_of_ends (l : List Char)
    (hh : ∀ c, l.head? = some c → pyWs c = false)
    (hl : ∀ c, l.getLast? = some c → pyWs c = false) : pyStripList l = l := by
  unfold pyStripList
  rw [dropWhile_head_not l hh]
  rw [dropWhile_head_not l.reverse
    (by intro c hc; exact hl c (by rwa [List.head?_reverse] at hc))]
  exact List.reverse_reverse l

/-- Claim C9: `clean_json_response` first removes the markdown fences; then,
if the remaining text lacks a `{` or lacks a `}`, it returns the empty
string; otherwise it returns the text from the first `{` through the last
`}` (Python slice semantics), stripped of surrounding whitespace — hence
the result is never partial text outside the outermost brace pair: it is
empty or starts with `{` and ends with `}`. -/
theorem c9_clean_json_response (s : String) :
    ((¬ '\x7b' ∈ defenced s ∨ ¬ '\x7d' ∈ defenced s) → clean_json_response s = "") ∧
    (∀ i j, (defenced s).findIdx? (fun c => c == '\x7b') = some i →
        ((defenced s).reverse.findIdx? (fun c => c == '\x7d')).map
          (fun n => (defenced s).length - 1 - n) = some j →
        clean_json_response s = pyStrip ⟨((defenced s).drop i).take (j + 1 - i)⟩) ∧
    (clean_json_response s = "" ∨
      ((clean_json_response s).data.head? = some '\x7b' ∧
       (clean_json_response s).data.getLast? = some '\x7d')) := by
  have h1 : (¬ '\x7b' ∈ defenced s ∨ ¬ '\x7d' ∈ defenced s) → clean_json_response s = "" := by
    intro h
    have hcond : pyFind (defenced s) '\x7b' = -1 ∨ pyRFind (defenced s) '\x7d' + 1 = 0 := by
      rcases h with h | h
      · left
        have hnone : (defenced s).findIdx? (fun c => c == '\x7b') = none :=
          List.findIdx?_eq_none_iff.mpr
            (fun a ha => beq_eq_false_iff_ne.mpr fun e => h (e ▸ ha))
        simp [pyFind, hnone]
      · right
        have hnone : (defenced s).reverse.findIdx? (fun c => c == '\x7d') = none :=
          List.findIdx?_eq_none_iff.mpr
            (fun a ha => beq_eq_false_iff_ne.mpr fun e => h (e ▸ List.mem_reverse.mp ha))
        simp [pyRFind, hnone]
    unfold clean_json_response
    dsimp only
    rw [if_pos hcond]
  have h2 : ∀ i j, (defenced s).findIdx? (fun c => c == '\x7b') = some i →
      ((defenced s).reverse.findIdx? (fun c => c == '\x7d')).map
        (fun n => (defenced s).length - 1 - n) = some j →
      clean_json_response s = pyStrip ⟨((defenced s).drop i).take (j + 1 - i)⟩ := by
    intro i j hi hj
    cases hr : (defenced s).reverse.findIdx? (fun c => c == '\x7d') with
    | none => rw [hr] at hj; exact absurd hj (by simp)
    | some n =>
      rw [hr] at hj
      simp at hj
      obtain ⟨hnlt, -, -⟩ := List.findIdx?_eq_some_iff_getElem.mp hr
      rw [List.length_reverse] at hnlt
      have hstart : pyFind (defenced s) '\x7b' = (i : ℤ) := by simp [pyFind, hi]
      have hstop : pyRFind (defenced s) '\x7d' = ((defenced s).length : ℤ) - 1 - n := by
        simp [pyRFind, hr]
      unfold clean_json_response
      dsimp only
      rw [hstart, hstop, if_neg (by push_neg; constructor <;> omega)]
      have harg : (((defenced s).length : ℤ) - 1 - ↑n + 1).toNat - (i : ℤ).toNat
          = j + 1 - i := by omega
      rw [show ((i : ℤ)).toNat = i from by omega] at harg ⊢
      rw [harg]
  refine ⟨h1, h2, ?_⟩
  cases hstart : (defenced s).findIdx? (fun c => c == '\x7b') with
  | none =>
    left
    apply h1
    left
    intro hmem
    have := List.findIdx?_eq_none_iff.mp hstart _ hmem
    simp at this
  | some i =>
    cases hr : (defenced s).reverse.findIdx? (fun c => c == '\x7d') with
    | none =>
      left
      apply h1
      right
      intro hmem
      have := List.findIdx?_eq_none_iff.mp hr _ (List.mem_reverse.mpr hmem)
      simp at this
    | some n =>
      obtain ⟨hilt, hip, -⟩ := List.findIdx?_eq_some_iff_getElem.mp hstart
      obtain ⟨hnlt, hnp, -⟩ := List.findIdx?_eq_some_iff_getElem.mp hr
      rw [List.length_reverse] at hnlt
      have hibrace : (defenced s)[i] = '\x7b' := by simpa using hip
      have hkbrace : (defenced s)[(defenced s).length - 1 - n]? = some '\x7d' := by
        rw [List.getElem_reverse] at hnp
        rw [List.getElem?_eq_getElem
          (show (defenced s).length - 1 - n < (defenced s).length from by omega)]
        exact congrArg some (by simpa using hnp)
      have hres := h2 i ((defenced s).length - 1 - n) hstart (by rw [hr]; rfl)
      by_cases hik : i ≤ (defenced s).length - 1 - n
      · right
        set k := (defenced s).length - 1 - n with hk
        have hslice : (((defenced s).drop i).take (k + 1 - i)).head? = some '\x7b' := by
          rw [List.head?_take, if_neg (by omega), List.head?_drop]
          rw [List.getElem?_eq_getElem hilt, hibrace]
        have hlen : (((defenced s).drop i).take (k + 1 - i)).length = k + 1 - i := by
          rw [List.length_take, List.length_drop]
          omega
        have hslast : (((defenced s).drop i).take (k + 1 - i)).getLast? = some '\x7d' := by
          rw [List.getLast?_eq_getElem?, hlen]
          rw [List.getElem?_take, if_pos (by omega), List.getElem?_drop]
          rw [show i + (k + 1 - i - 1) = k from by omega]
          exact hkbrace
        have hstrip : pyStripList (((defenced s).drop i).take (k + 1 - i))
            = ((defenced s).drop i).take (k + 1 - i) := by
          apply pyStripList_of_ends
          · intro c hc
            rw [hslice] at hc
            injection hc with hc
            rw [← hc]
            rfl
          · intro c hc
            rw [hslast] at hc
            injection hc with hc
            rw [← hc]
            rfl
        constructor
        · rw [hres]
          show (pyStripList (((defenced s).drop i).take (k + 1 - i))).head? = _
          rw [hstrip, hslice]
        · rw [hres]
          show (pyStripList (((defenced s).drop i).take (k + 1 - i))).getLast? = _
          rw [hstrip, hslast]
      · left
        rw [hres, show (defenced s).length - 1 - n + 1 - i = 0 from by omega]
        rfl

theorem length_dropWhile_le (p : Char → Bool) (l : List Char) :
    (l.dropWhile p).length ≤ l.length := by
  induction l with
  | nil => simp
  | cons a t ih => rw [List.dropWhile_cons]; split <;> simp <;> omega

theorem dropWhile_ws_append {w : List Char} (hw : ∀ c ∈ w, pyWs c = true)
    (l : List Char) : (w ++ l).dropWhile pyWs = l.dropWhile pyWs := by
  induction w with
  | nil => rfl
  | cons a t ih =>
    rw [List.cons_append, List.dropWhile_cons, hw a (List.mem_cons_self a t)]
    exact ih fun c hc => hw c (List.mem_cons_of_mem a hc)

theorem dropWhile_ws_all {w : List Char} (hw : ∀ c ∈ w, pyWs c = true) :
    w.dropWhile pyWs = [] := by
  have := dropWhile_ws_append hw ([] : List Char)
  simpa using this

theorem dropWhile_append_of_ne_nil {l : List Char} (h : l.dropWhile pyWs ≠ [])
    (w : List Char) : (l ++ w).dropWhile pyWs = l.dropWhile pyWs ++ w := by
  induction l with
  | nil => exact absurd rfl h
  | cons a t ih =>
    by_cases ha : pyWs a = true
    · simp only [List.cons_append, List.dropWhile_cons, ha, if_true] at h ⊢
      exact ih h
    · rw [Bool.not_eq_true] at ha
      simp [List.cons_append, List.dropWhile_cons, ha]

theorem dropWhile_nil_append {l : List Char} (h : l.dropWhile pyWs = [])
    (w : List Char) : (l ++ w).dropWhile pyWs = w.dropWhile pyWs := by
  induction l with
  | nil => rfl
  | cons a t ih =>
    rw [List.cons_append, List.dropWhile_cons]
    rw [List.dropWhile_cons] at h
    by_cases ha : pyWs a = true
    · rw [ha] at h ⊢
      simp only [if_true]
      exact ih h
    · rw [Bool.not_eq_true] at ha
      rw [ha] at h
      simp at h

/-- Python `str.strip()` ignores surrounding whitespace entirely. -/
theorem pyStripList_ws (d : List Char) {w1 w2 : List Char}
    (hw1 : ∀ c ∈ w1, pyWs c = true) (hw2 : ∀ c ∈ w2, pyWs c = true) :
    pyStripList (w1 ++ d ++ w2) = pyStripList d := by
  unfold pyStripList
  rw [List.append_assoc, dropWhile_ws_append hw1]
  by_cases hA : d.dropWhile pyWs = []
  · rw [dropWhile_nil_append hA, dropWhile_ws_all hw2, hA]
  · rw [dropWhile_append_of_ne_nil hA, List.reverse_append]
    rw [dropWhile_ws_append (fun c hc => hw2 c (List.mem_reverse.mp hc))]

theorem dropWhile_eq_self_of_length {l : List Char}
    (h : (l.dropWhile pyWs).length = l.length) : l.dropWhile pyWs = l := by
  induction l with
  | nil => rfl
  | cons a t ih =>
    rw [List.dropWhile_cons] at h ⊢
    by_cases ha : pyWs a = true
    · rw [ha] at h ⊢
      simp only [if_true] at h ⊢
      exfalso
      rw [List.length_cons] at h
      have := length_dropWhile_le pyWs t
      omega
    · rw [Bool.not_eq_true] at ha
      rw [ha]
      simp

theorem head_not_ws_of_dropWhile_eq {l : List Char} (h : l.dropWhile pyWs = l) :
    ∀ c, l.head? = some c → pyWs c = false := by
  intro c hc
  cases l with
  | nil => exact absurd hc (by simp)
  | cons a t =>
    have hac : a = c := by injection hc
    rw [List.dropWhile_cons] at h
    by_cases ha : pyWs a = true
    · rw [ha] at h
      simp only [if_true] at h
      exfalso
      have h1 := length_dropWhile_le pyWs t
      have h2 := congrArg List.length h
      rw [List.length_cons] at h2
      omega
    · rw [Bool.not_eq_true] at ha
      rw [← hac]
      exact ha

/-- A string equal to its own strip keeps its front `dropWhile` intact. -/
theorem dropWhile_eq_self_of_strip {l : List Char} (h : pyStripList l = l) :
    l.dropWhile pyWs = l := by
  apply dropWhile_eq_self_of_length
  have h1 := length_dropWhile_le pyWs l
  have h2 := length_dropWhile_le pyWs (l.dropWhile pyWs).reverse
  rw [List.length_reverse] at h2
  have h3 := congrArg List.length h
  unfold pyStripList at h3
  simp only [List.length_reverse] at h3
  omega

/-- Likewise its back `dropWhile` stays intact. -/
theorem dropWhile_reverse_eq_self_of_strip {l : List Char} (h : pyStripList l = l) :
    l.reverse.dropWhile pyWs = l.reverse := by
  have hfront := dropWhile_eq_self_of_strip h
  unfold pyStripList at h
  rw [hfront] at h
  have := congrArg List.reverse h
  rw [List.reverse_reverse] at this
  rw [this]

/-- Witness for `c9_clean_json_response`: a reply with no JSON object
cleans to the empty string. -/
theorem c9_clean_json_response_witness : clean_json_response "no json here" = "" :=
  (c9_clean_json_response "no json here").1 (by decide)

set_option maxRecDepth 100000 in
/-- Claim C10 — counterexample to the claim as stated.  `phone_to_uuid`
strips whitespace *before* removing `+` characters, so inserting a `+` in
front of a number that carries leading whitespace blocks the strip: for
`p = " 123"`, inserting `+` at the front gives `"+ 123"`, whose namespace
string is `"wa_ 123"` instead of `"wa_123"`, and the resulting UUIDs (the
full RFC 4122 v5 computation) differ. -/
theorem c10_counterexample : phone_to_uuid " 123" ≠ phone_to_uuid "+ 123" := by decide

/-- Claim C10 (amended): `phone_to_uuid` is deterministic — equal inputs give
equal UUIDs; adding surrounding whitespace never changes the result; and
inserting a `+` anywhere in an input with no surrounding whitespace (in
particular a leading `+` on a bare number) never changes the result.  Only
the combination refuted above — a `+` inserted outside existing surrounding
whitespace — escapes the normalisation. -/
theorem c10_normalization :
    (∀ p q : String, p = q → phone_to_uuid p = phone_to_uuid q) ∧
    (∀ (p : String) (w1 w2 : List Char), (∀ c ∈ w1, pyWs c = true) →
      (∀ c ∈ w2, pyWs c = true) →
      phone_to_uuid (⟨w1⟩ ++ p ++ ⟨w2⟩) = phone_to_uuid p) ∧
    (∀ a b : String, pyStrip (a ++ b) = a ++ b →
      phone_to_uuid (a ++ "+" ++ b) = phone_to_uuid (a ++ b)) := by
  refine ⟨fun p q h => h ▸ rfl, ?_, ?_⟩
  · intro p w1 w2 hw1 hw2
    have hclean : clean_number (⟨w1⟩ ++ p ++ ⟨w2⟩) = clean_number p := by
      unfold clean_number pyStrip
      rw [String.data_append, String.data_append]
      show removePlus ⟨pyStripList (w1 ++ p.data ++ w2)⟩ = _
      rw [pyStripList_ws p.data hw1 hw2]
    unfold phone_to_uuid namespace_string
    rw [hclean]
  · intro a b h
    have hdata : pyStripList (a.data ++ b.data) = a.data ++ b.data := by
      have := congrArg String.data h
      rwa [String.data_append] at this
    have hfront := dropWhile_eq_self_of_strip hdata
    have hback := dropWhile_reverse_eq_self_of_strip hdata
    have hq : pyStripList (a.data ++ '+' :: b.data) = a.data ++ '+' :: b.data := by
      apply pyStripList_of_ends
      · intro c hc
        cases ha : a.data with
        | nil =>
          rw [ha] at hc
          simp only [List.nil_append, List.head?_cons] at hc
          injection hc with hc
          rw [← hc]
          rfl
        | cons x xs =>
          have hx : c = x := by
            rw [ha] at hc
            simp only [List.cons_append, List.head?_cons] at hc
            injection hc with hc
            exact hc.symm
          apply head_not_ws_of_dropWhile_eq hfront
          rw [ha, hx]
          rfl
      · intro c hc
        cases hb : b.data with
        | nil =>
          rw [hb] at hc
          rw [show a.data ++ '+' :: ([] : List Char) = a.data ++ ['+'] from rfl] at hc
          rw [List.getLast?_concat] at hc
          injection hc with hc
          rw [← hc]
          rfl
        | cons y ys =>
          have hlast : (a.data ++ b.data).getLast? = some c := by
            rw [hb] at hc ⊢
            rw [List.getLast?_append] at hc ⊢
            rwa [show ('+' :: y :: ys).getLast? = (y :: ys).getLast? from rfl] at hc
          apply head_not_ws_of_dropWhile_eq hback
          rwa [List.head?_reverse]
    have hclean : clean_number (a ++ "+" ++ b) = clean_number (a ++ b) := by
      unfold clean_number pyStrip
      rw [String.data_append, String.data_append, String.data_append]
      show removePlus ⟨pyStripList (a.data ++ "+".data ++ b.data)⟩
          = removePlus ⟨pyStripList (a.data ++ b.data)⟩
      rw [show a.data ++ "+".data ++ b.data = a.data ++ '+' :: b.data from by
        rw [List.append_assoc]; rfl]
      rw [hq, hdata]
      unfold removePlus
      show (⟨List.filter _ (a.data ++ '+' :: b.data)⟩ : String) = ⟨List.filter _ (a.data ++ b.data)⟩
      rw [List.filter_append, List.filter_append]
      rfl
    unfold phone_to_uuid namespace_string
    rw [hclean]

/-- Witness for `c10_normalization`: `" +123 "`, `"+123"` and `"123"` all
resolve to the same UUID. -/
theorem c10_normalization_witness : phone_to_uuid " +123 " = phone_to_uuid "123" := by
  have h1 : phone_to_uuid " +123 " = phone_to_uuid "+123" := by
    have h := c10_normalization.2.1 "+123" [' '] [' '] (by decide) (by decide)
    rwa [show (⟨[' ']⟩ ++ "+123" ++ ⟨[' ']⟩ : String) = " +123 " from by decide] at h
  have h2 : phone_to_uuid "+123" = phone_to_uuid "123" := by
    have h := c10_normalization.2.2 "" "123" (by decide)
    rwa [show ("" ++ "+" ++ "123" : String) = "+123" from by decide,
      show ("" ++ "123" : String) = "123" from by decide] at h
  exact h1.trans h2
